import Mathlib

/-!
Shallow embedding of `src/analogKeypad.h` (class `AnalogKeypad`).

Modelling conventions:
* `String` stays `String`; `uint8_t` / `uint16_t` values are `Nat` with an
  explicit `% 256` / `% 65536` exactly where the C++ code performs a
  narrowing assignment.  The one narrowing assignment in the source is
  `_key = analogRead(_pin)` where `_key` is declared `uint8_t` while
  `analogRead` returns an `int` in `[0, 1023]`; it is modelled as `% 256`.
* The parallel fixed arrays `String _names[MAX_KEYS]` / `uint16_t
  _values[MAX_KEYS]` together with the logical length `_mapSize` are
  modelled as two parallel lists holding the first `_mapSize` slots;
  `_mapSize` is the list length.  The index at which `registerKey` writes
  (`_names[_mapSize] = name`) is exposed as `writeIndex`.
* `analogRead(_pin)` is an external input: functions that sample take the
  reading (`getPressed`) or a stream of readings (`waitChange`) as an
  argument.
* The scratch loop counter `_i` and the `_lastKey` cache (used only by
  `waitPressed`, which no claim mentions) are omitted from the state.
-/

/-- `#define ERR_NAME_EMPTY 0b000` -/
def ERR_NAME_EMPTY : Nat := 0

/-- `#define ERR_FORBIDDEN_VALUE 0b001` -/
def ERR_FORBIDDEN_VALUE : Nat := 1

/-- `#define ERR_NOT_SAME_LENGTH 0b010` -/
def ERR_NOT_SAME_LENGTH : Nat := 2

/-- `#define ERR_SIZE_EXCEEDED 0b011` -/
def ERR_SIZE_EXCEEDED : Nat := 3

/-- `#define REGISTERED 0b100` -/
def REGISTERED : Nat := 4

/-- `#define MAX_KEYS 25` -/
def MAX_KEYS : Nat := 25

/-- The member state of class `AnalogKeypad`.  `_names`/`_values` are the
first `_mapSize` slots of the two backing arrays, kept as parallel lists. -/
structure AnalogKeypad where
  _names : List String
  _values : List Nat
  _noPressed : Nat
  _pin : Nat
  _key : Nat
deriving Repr, DecidableEq

/-- `_mapSize`: the logical number of registered entries. -/
def AnalogKeypad._mapSize (k : AnalogKeypad) : Nat := k._names.length

/-- The index at which a successful `registerKey` writes:
`_names[_mapSize] = name; _values[_mapSize] = value;`. -/
def writeIndex (k : AnalogKeypad) : Nat := k._mapSize

/-- The two-argument constructor `AnalogKeypad(uint8_t pin, uint16_t
noPressed)`: assigns `_pin`, `_noPressed` and `_mapSize = 0` (so the logical
entry sequence is empty).  `_key` has no initializer and stays whatever the
storage held, captured by the pre-construction state `pre`. -/
def ctorPinNoPressed (pin noPressed : Nat) (pre : AnalogKeypad) : AnalogKeypad :=
  { pre with
    _pin := pin % 256
    _noPressed := noPressed % 65536
    _names := []
    _values := [] }

/-- The one-argument constructor `AnalogKeypad(uint8_t pin)`.  Its body
`{ AnalogKeypad(pin, 0); }` constructs a temporary object and immediately
discards it; it does not delegate, so none of the members of `this` are
assigned.  The `String` array elements are default-constructed to `""`
(reflected by blanking the name slots); the integral members `_pin`,
`_noPressed`, `_mapSize`, `_key` and the `_values` slots keep the
indeterminate contents captured by `pre`. -/
def ctorPin (pin : Nat) (pre : AnalogKeypad) : AnalogKeypad :=
  { pre with _names := pre._names.map (fun _ => "") }

/-- `registerKey(const String name, uint16_t value)`, returning the error
code and the post-call state.  The capacity test is the source's
`if (_mapSize > MAX_KEYS) return ERR_SIZE_EXCEEDED;`. -/
def registerKey (k : AnalogKeypad) (name : String) (value : Nat) :
    Nat × AnalogKeypad :=
  if name = "" then (ERR_NAME_EMPTY, k)
  else if value = 0 ∨ 1023 ≤ value then (ERR_FORBIDDEN_VALUE, k)
  else if MAX_KEYS < k._mapSize then (ERR_SIZE_EXCEEDED, k)
  else (REGISTERED,
    { k with
      _names := k._names ++ [name]
      _values := k._values ++ [value] })

/-- The loop of `registerKeys`: call `registerKey` on each pair in order,
returning the first non-`REGISTERED` code, threading the mutated state. -/
def registerKeysLoop (k : AnalogKeypad) :
    List (String × Nat) → Nat × AnalogKeypad
  | [] => (REGISTERED, k)
  | p :: rest =>
    let r := registerKey k p.1 p.2
    if r.1 = REGISTERED then registerKeysLoop r.2 rest else r

/-- `registerKeys(const String names[], const uint16_t values[])`.
The source computes `uint8_t listSize = sizeof(names)/sizeof(String);` and
compares it with `sizeof(values)/sizeof(uint16_t)`.  Inside the function the
array parameters have decayed to pointers, so `sizeof(names)` is the size of
a `String*` and `sizeof(values)` the size of a `uint16_t*`: both ratios are
platform constants independent of how many elements the caller passed.  The
four size parameters model `sizeof(String*)`, `sizeof(String)`,
`sizeof(uint16_t*)` and `sizeof(uint16_t)`; division is C integer division.
The loop reads `names[_i]`, `values[_i]` for `_i < listSize`, modelled by
taking the first `listSize` pairs (in the platform instantiations proved
below `listSize` is `0`, so no out-of-bounds read needs modelling). -/
def registerKeys (szStringPtr szString szU16Ptr szU16 : Nat)
    (k : AnalogKeypad) (names : List String) (values : List Nat) :
    Nat × AnalogKeypad :=
  let listSize := szStringPtr / szString
  if listSize ≠ szU16Ptr / szU16 then (ERR_NOT_SAME_LENGTH, k)
  else registerKeysLoop k ((names.zip values).take listSize)

/-- `isRegistered(const String name)`: scan `_names[0.._mapSize)` for an
equal name. -/
def isRegisteredName (k : AnalogKeypad) (name : String) : Bool :=
  k._names.any (fun n => n = name)

/-- `isRegistered(uint16_t value)`: scan `_values[0.._mapSize)` for an
equal value. -/
def isRegisteredValue (k : AnalogKeypad) (value : Nat) : Bool :=
  k._values.any (fun v => v = value)

/-- The scan loop of `getPressed`: return `_names[_i]` for the first `_i`
with `_values[_i] == _key`, else `""`. -/
def findName : List String → List Nat → Nat → String
  | n :: ns, v :: vs, key => if v = key then n else findName ns vs key
  | _, _, _ => ""

/-- The index `_i` at which the scan loop of `getPressed` returns, if any. -/
def findIdxMatch : List Nat → Nat → Option Nat
  | [], _ => none
  | v :: vs, key => if v = key then some 0 else (findIdxMatch vs key).map (· + 1)

/-- `getPressed()`, with the sampled reading `analogRead(_pin)` passed in as
`reading`.  The assignment `_key = analogRead(_pin)` narrows to `uint8_t`,
hence the `% 256`; the subsequent tests and the scan compare against the
narrowed `_key`. -/
def getPressed (k : AnalogKeypad) (reading : Nat) : String × AnalogKeypad :=
  let key := reading % 256
  let k' := { k with _key := key }
  if key = 0 ∨ 1023 ≤ key then ("", k')
  else (findName k'._names k'._values key, k')

/-- The index of the entry that `getPressed` resolves the reading to, if
any: `none` on the boundary return, else the first scan match. -/
def pressedIdx (k : AnalogKeypad) (reading : Nat) : Option Nat :=
  let key := reading % 256
  if key = 0 ∨ 1023 ≤ key then none else findIdxMatch k._values key

/-- One fuel-indexed unfolding of `waitChange()`'s loop
`while (_key == analogRead(_pin));` over a stream `reads` of successive
samples: `some i` means the loop exits right after observing `reads i`,
`none` means it is still spinning after `fuel` samples starting at index
`i`. -/
def waitChangeAux (k : AnalogKeypad) (reads : Nat → Nat) :
    Nat → Nat → Option Nat
  | _, 0 => none
  | i, fuel + 1 =>
    if reads i = k._key then waitChangeAux k reads (i + 1) fuel else some i

/-- `waitChange()` run for at most `fuel` samples. -/
def waitChange (k : AnalogKeypad) (reads : Nat → Nat) (fuel : Nat) :
    Option Nat :=
  waitChangeAux k reads 0 fuel

/-- A fresh keypad: the state right after `AnalogKeypad(0, 0)` on zeroed
storage. -/
def k0 : AnalogKeypad := ⟨[], [], 0, 0, 0⟩

/-- Register a list of pairs one by one, keeping only the state. -/
def regAll (k : AnalogKeypad) (ps : List (String × Nat)) : AnalogKeypad :=
  ps.foldl (fun s p => (registerKey s p.1 p.2).2) k

/-- The keypad after 25 successful registrations: the table is full. -/
def k25 : AnalogKeypad := regAll k0 (List.replicate 25 ("k", 500))

/-- The keypad of the spec's scenario: entries `("A", 100)`, `("B", 500)`. -/
def kAB : AnalogKeypad := regAll k0 [("A", 100), ("B", 500)]

/-- An arbitrary indeterminate pre-construction state (name slots already
default-constructed to `""`). -/
def preGarbage : AnalogKeypad := ⟨["", ""], [7, 9], 3, 9, 5⟩

/-! ## Helper lemmas -/

lemma AnalogKeypad.mapSize_append (k : AnalogKeypad) (name : String)
    (value : Nat) :
    (AnalogKeypad._mapSize
      { k with
        _names := k._names ++ [name]
        _values := k._values ++ [value] }) = k._mapSize + 1 := by
  simp [AnalogKeypad._mapSize]

lemma registerKey_fst_of_registered (k : AnalogKeypad) (name : String)
    (value : Nat) (h : (registerKey k name value).1 = REGISTERED) :
    name ≠ "" ∧ ¬(value = 0 ∨ 1023 ≤ value) ∧ ¬(MAX_KEYS < k._mapSize) ∧
      (registerKey k name value).2 =
        { k with
          _names := k._names ++ [name]
          _values := k._values ++ [value] } := by
  unfold registerKey at h ⊢
  split_ifs at h ⊢ with h1 h2 h3
  all_goals
    simp_all [ERR_NAME_EMPTY, ERR_FORBIDDEN_VALUE, ERR_SIZE_EXCEEDED,
      REGISTERED]

lemma findIdxMatch_get (vs : List Nat) (key : Nat) :
    ∀ i, findIdxMatch vs key = some i → vs.get? i = some key := by
  induction vs with
  | nil => intro i h; simp [findIdxMatch] at h
  | cons v vs ih =>
    intro i h
    unfold findIdxMatch at h
    by_cases hv : v = key
    · simp [hv] at h
      simp [← h, hv]
    · simp [hv] at h
      obtain ⟨j, hj, hji⟩ := h
      subst hji
      simpa using ih j hj

/-- C4: `registerKey` applies its checks in order (empty name, then
forbidden value, then capacity), the first failing check fixing the result
and leaving the state unchanged; on success it appends `{name, value}`
after the existing entries, the size grows by one, and it returns
`REGISTERED`. -/
theorem registerKey_validation_order (k : AnalogKeypad) (name : String)
    (value : Nat) :
    (name = "" → registerKey k name value = (ERR_NAME_EMPTY, k))
    ∧ (name ≠ "" → (value = 0 ∨ 1023 ≤ value) →
        registerKey k name value = (ERR_FORBIDDEN_VALUE, k))
    ∧ (name ≠ "" → value ≠ 0 → value < 1023 →
        (MAX_KEYS < k._mapSize →
          registerKey k name value = (ERR_SIZE_EXCEEDED, k))
        ∧ (¬(MAX_KEYS < k._mapSize) →
          registerKey k name value =
            (REGISTERED,
              { k with
                _names := k._names ++ [name]
                _values := k._values ++ [value] })
          ∧ (registerKey k name value).2._mapSize = k._mapSize + 1)) := by
  refine ⟨fun h => by simp [registerKey, h], fun hn hv => ?_, fun hn h0 h1 => ⟨fun hc => ?_, fun hc => ?_⟩⟩
  · simp [registerKey, hn, hv]
  · have : value = 0 ∨ 1023 ≤ value → False := by omega
    simp [registerKey, hn, hc]
    omega
  · have hv : ¬(value = 0 ∨ 1023 ≤ value) := by omega
    have hc' : ¬(MAX_KEYS < k._names.length) := hc
    constructor
    · simp [registerKey, hn, hv, hc]
    · simp [registerKey, AnalogKeypad._mapSize, hn, hv, hc']

/-- Witness for C4 at concrete inputs. -/
theorem registerKey_validation_order_witness :
    registerKey k0 "" 5 = (ERR_NAME_EMPTY, k0)
    ∧ registerKey k0 "a" 0 = (ERR_FORBIDDEN_VALUE, k0)
    ∧ registerKey k0 "a" 5 =
        (REGISTERED, { k0 with _names := ["a"], _values := [5] }) := by
  refine ⟨(registerKey_validation_order k0 "" 5).1 rfl,
    (registerKey_validation_order k0 "a" 0).2.1 (by decide) (Or.inl rfl), ?_⟩
  have h := (((registerKey_validation_order k0 "a" 5).2.2 (by decide)
    (by decide) (by decide)).2 (by decide)).1
  simpa [k0] using h

/-- C7: whenever `registerKey` returns `REGISTERED`, both `isRegistered`
overloads find the new entry in the resulting state. -/
theorem registerKey_isRegistered (k : AnalogKeypad) (name : String)
    (value : Nat) (hn : name ≠ "") (h0 : 0 < value) (h1 : value < 1023)
    (hr : (registerKey k name value).1 = REGISTERED) :
    isRegisteredName (registerKey k name value).2 name = true
    ∧ isRegisteredValue (registerKey k name value).2 value = true := by
  obtain ⟨-, -, -, hstate⟩ := registerKey_fst_of_registered k name value hr
  rw [hstate]
  constructor
  · simp [isRegisteredName]
  · simp [isRegisteredValue]

/-- Witness for C7 at concrete inputs. -/
theorem registerKey_isRegistered_witness :
    isRegisteredName (registerKey k0 "a" 5).2 "a" = true
    ∧ isRegisteredValue (registerKey k0 "a" 5).2 5 = true :=
  registerKey_isRegistered k0 "a" 5 (by decide) (by decide) (by decide)
    (by decide)

/-- C8: on every non-`REGISTERED` outcome, `registerKey` leaves the state
exactly as it was. -/
theorem registerKey_error_no_mutation (k : AnalogKeypad) (name : String)
    (value : Nat) (h : (registerKey k name value).1 ≠ REGISTERED) :
    (registerKey k name value).2 = k := by
  unfold registerKey at h ⊢
  split_ifs at h ⊢ with h1 h2 h3
  all_goals simp_all [REGISTERED]

/-- Witness for C8 at a concrete input. -/
theorem registerKey_error_no_mutation_witness :
    (registerKey k0 "" 5).2 = k0 :=
  registerKey_error_no_mutation k0 "" 5 (by decide)

/-- C1 (failing input): with `("A", 100)` and `("B", 500)` registered, a
reading of `100` resolves to `"A"`, but a reading of `500` — whose value is
registered — resolves to `""` rather than `"B"`, because the reading is
narrowed to the `uint8_t` member `_key` (`500 % 256 = 244`) before the
scan. -/
theorem getPressed_truncation_bug :
    (getPressed kAB 100).1 = "A"
    ∧ isRegisteredValue kAB 500 = true
    ∧ (getPressed kAB 500).1 = ""
    ∧ (getPressed kAB 0).1 = ""
    ∧ (getPressed kAB 1023).1 = ""
    ∧ (getPressed kAB 300).1 = "" := by
  decide

set_option maxRecDepth 8000 in
/-- C2 (failing input): after 25 successful registrations the table is
full, yet the 26th `registerKey` still returns `REGISTERED` (the source
checks `_mapSize > MAX_KEYS`), making the size 26 > `MAX_KEYS`; only the
27th fails with `ERR_SIZE_EXCEEDED`. -/
theorem registerKey_26th_succeeds :
    k25._mapSize = MAX_KEYS
    ∧ (registerKey k25 "z" 500).1 = REGISTERED
    ∧ (registerKey k25 "z" 500).2._mapSize = MAX_KEYS + 1
    ∧ (registerKey (registerKey k25 "z" 500).2 "w" 500).1 =
        ERR_SIZE_EXCEEDED := by
  decide

set_option maxRecDepth 8000 in
/-- C6 (failing input): the 26th successful `registerKey` writes at index
`_mapSize = 25 = MAX_KEYS`, which is not strictly below `MAX_KEYS`, i.e.
one slot past the end of the 25-element backing arrays. -/
theorem registerKey_write_out_of_bounds :
    (registerKey k25 "z" 500).1 = REGISTERED
    ∧ writeIndex k25 = MAX_KEYS
    ∧ ¬(writeIndex k25 < MAX_KEYS) := by
  decide

/-- C3 (failing input): on AVR (`sizeof(String*) = 2`, `sizeof(String) = 6`,
`sizeof(uint16_t*) = 2`, `sizeof(uint16_t) = 2`) the computed `listSize` is
`2 / 6 = 0` while the right-hand ratio is `2 / 2 = 1`, so `registerKeys`
returns `ERR_NOT_SAME_LENGTH` and registers nothing for every input —
including pairs of sequences of equal logical length. -/
theorem registerKeys_sizeof_bug :
    ∀ (k : AnalogKeypad) (names : List String) (values : List Nat),
      registerKeys 2 6 2 2 k names values = (ERR_NOT_SAME_LENGTH, k) := by
  intro k names values
  simp [registerKeys]

/-- C10 (failing input): the one-argument constructor does not delegate;
on an indeterminate pre-state it leaves `_pin = 9` (not the argument `5`),
`_noPressed = 3` (not `0`) and `_mapSize = 2` (not `0`), so its result
differs from `AnalogKeypad(5, 0)`'s. -/
theorem ctorPin_no_delegation :
    (ctorPin 5 preGarbage)._pin = 9
    ∧ (ctorPin 5 preGarbage)._noPressed = 3
    ∧ (ctorPin 5 preGarbage)._mapSize = 2
    ∧ ctorPin 5 preGarbage ≠ ctorPinNoPressed 5 0 preGarbage
    ∧ (ctorPinNoPressed 5 0 preGarbage)._pin = 5
    ∧ (ctorPinNoPressed 5 0 preGarbage)._noPressed = 0
    ∧ (ctorPinNoPressed 5 0 preGarbage)._mapSize = 0 := by
  decide

lemma getPressed_snd_key (k : AnalogKeypad) (r : Nat) :
    (getPressed k r).2._key = r % 256 := by
  unfold getPressed
  dsimp only
  split <;> rfl

/-- C5: the reading is narrowed to the `uint8_t` member `_key` before
resolution, so `getPressed` resolves `reading % 256` against the registered
16-bit values: (1) the result is the first name whose value equals
`reading % 256` (empty on the `_key == 0` boundary); (2) the stored sample
is `reading % 256`; (3) an entry registered with a value `v ≥ 256` is never
the entry resolved by a raw reading equal to `v`; (4) the resolved entry's
value always equals `reading % 256`; (5) a reading of `1023` resolves to an
entry registered with value `255`. -/
theorem getPressed_truncates (k : AnalogKeypad) (r : Nat) :
    ((getPressed k r).1 =
      if r % 256 = 0 then "" else findName k._names k._values (r % 256))
    ∧ (getPressed k r).2._key = r % 256
    ∧ (∀ i v, k._values.get? i = some v → 256 ≤ v →
        pressedIdx k v ≠ some i)
    ∧ (∀ i w, pressedIdx k r = some i → k._values.get? i = some w →
        w = r % 256)
    ∧ (getPressed { k with _names := ["K"], _values := [255] } 1023).1 =
        "K" := by
  have hmod : r % 256 < 256 := Nat.mod_lt _ (by norm_num)
  refine ⟨?_, getPressed_snd_key k r, ?_, ?_, ?_⟩
  · by_cases h : r % 256 = 0
    · simp [getPressed, h]
    · have h2 : ¬(1023 ≤ r % 256) := by omega
      simp [getPressed, h, h2]
  · intro i v hget hv hcontra
    unfold pressedIdx at hcontra
    dsimp only at hcontra
    split_ifs at hcontra with hg
    have h1 := findIdxMatch_get k._values (v % 256) i hcontra
    rw [hget] at h1
    have h2 : v = v % 256 := by injection h1
    have : v % 256 < 256 := Nat.mod_lt _ (by norm_num)
    omega
  · intro i w hp hget
    unfold pressedIdx at hp
    dsimp only at hp
    split_ifs at hp with hg
    have h1 := findIdxMatch_get k._values (r % 256) i hp
    rw [hget] at h1
    injection h1 with h1
  · have h1 : (1023 : Nat) % 256 = 255 := by norm_num
    simp [getPressed, h1, findName]

/-- Witness for C5: with `("A", 100)`, `("B", 500)` registered, the result
at reading `500` is the mod-256 first match, and the value-500 entry (index
1) is never the resolved entry for a raw reading of `500`. -/
theorem getPressed_truncates_witness :
    ((getPressed kAB 500).1 =
      if 500 % 256 = 0 then "" else findName kAB._names kAB._values (500 % 256))
    ∧ pressedIdx kAB 500 ≠ some 1 :=
  ⟨(getPressed_truncates kAB 500).1,
   (getPressed_truncates kAB 500).2.2.1 1 500 (by decide) (by decide)⟩

lemma waitChangeAux_some (k : AnalogKeypad) (reads : Nat → Nat) :
    ∀ fuel i n, waitChangeAux k reads i fuel = some n →
      reads n ≠ k._key ∧ ∀ m, i ≤ m → m < n → reads m = k._key := by
  intro fuel
  induction fuel with
  | zero => intro i n h; exact Option.noConfusion h
  | succ f ih =>
    intro i n h
    unfold waitChangeAux at h
    by_cases hr : reads i = k._key
    · rw [if_pos hr] at h
      obtain ⟨hne, hall⟩ := ih (i + 1) n h
      refine ⟨hne, fun m him hmn => ?_⟩
      rcases eq_or_lt_of_le him with he | hl
      · rw [← he]; exact hr
      · exact hall m hl hmn
    · rw [if_neg hr] at h
      injection h with h
      subst h
      exact ⟨hr, fun m him hmn => absurd (lt_of_le_of_lt him hmn)
        (lt_irrefl _)⟩

lemma waitChangeAux_none (k : AnalogKeypad) (reads : Nat → Nat)
    (hall : ∀ m, reads m = k._key) :
    ∀ fuel i, waitChangeAux k reads i fuel = none := by
  intro fuel
  induction fuel with
  | zero => intro i; rfl
  | succ f ih =>
    intro i
    unfold waitChangeAux
    rw [if_pos (hall i)]
    exact ih (i + 1)

lemma waitChangeAux_finds (k : AnalogKeypad) (reads : Nat → Nat) :
    ∀ fuel i n, i ≤ n → n < i + fuel → reads n ≠ k._key →
      (∀ m, i ≤ m → m < n → reads m = k._key) →
      waitChangeAux k reads i fuel = some n := by
  intro fuel
  induction fuel with
  | zero => intro i n h1 h2 _ _; exact absurd h2 (by omega)
  | succ f ih =>
    intro i n h1 h2 h3 h4
    unfold waitChangeAux
    rcases eq_or_lt_of_le h1 with he | hl
    · rw [← he] at h3
      rw [if_neg h3, he]
    · rw [if_pos (h4 i le_rfl hl)]
      exact ih (i + 1) n hl (by omega) h3 (fun m hm hmn => h4 m (by omega) hmn)

/-- C9: after `getPressed` stored the sample `r % 256` in `_key`,
`waitChange` spins while each new reading equals the stored sample: (1) if
it returns at index `n`, the reading there differs from the stored sample
and every earlier reading equalled it; (2) it never returns while every
reading equals the stored sample; (3) it returns at the first index whose
reading differs, as soon as it is reached. -/
theorem waitChange_spec (k : AnalogKeypad) (r : Nat) (reads : Nat → Nat) :
    (∀ fuel n, waitChange (getPressed k r).2 reads fuel = some n →
        reads n ≠ r % 256 ∧ ∀ m, m < n → reads m = r % 256)
    ∧ (∀ fuel, (∀ m, reads m = r % 256) →
        waitChange (getPressed k r).2 reads fuel = none)
    ∧ (∀ n fuel, n < fuel → reads n ≠ r % 256 →
        (∀ m, m < n → reads m = r % 256) →
        waitChange (getPressed k r).2 reads fuel = some n) := by
  have hk := getPressed_snd_key k r
  refine ⟨?_, ?_, ?_⟩
  · intro fuel n h
    obtain ⟨hne, hall⟩ := waitChangeAux_some _ reads fuel 0 n h
    rw [hk] at hne
    exact ⟨hne, fun m hm => by
      have := hall m (Nat.zero_le m) hm
      rwa [hk] at this⟩
  · intro fuel hall
    exact waitChangeAux_none _ reads (fun m => by rw [hk]; exact hall m)
      fuel 0
  · intro n fuel h1 h2 h3
    refine waitChangeAux_finds _ reads fuel 0 n (Nat.zero_le n) (by omega)
      (by rw [hk]; exact h2) (fun m _ hmn => by rw [hk]; exact h3 m hmn)

/-- Witness for C9: after sampling `100`, with readings
`100, 100, 7, 7, ...` the loop returns at index 2, the first reading that
differs from the stored sample. -/
theorem waitChange_spec_witness :
    waitChange (getPressed k0 100).2 (fun n => if n < 2 then 100 else 7) 10 =
      some 2 := by
  refine (waitChange_spec k0 100 (fun n => if n < 2 then 100 else 7)).2.2
    2 10 (by decide) (by decide) ?_
  intro m hm
  simp [hm]
